import Mathlib

/-!
Verification of the `RemoteMongoCollection` contract of the stitch-js-sdk
repository (source file
`src/packages/server/services/mongodb-remote/src/RemoteMongoCollection.ts`).

The source file in the repository is a TypeScript interface: it declares the
operation catalog and the return types but carries no executable bodies.  The
declared signatures are embedded directly (see `MethodName` and
`declaredReturn`).  The behaviour of the operations — read-operation execution,
findOne, insertOne, change-stream subscriptions — lives in implementation
files that are not part of the repository slice, so those parts are modelled
from the specification; each such definition says so in its doc comment.
-/

/-- A schemaless document value: the leaves of a BSON-like document. -/
inductive BVal where
  | int (n : Int)
  | str (s : String)
  | bool (b : Bool)
  deriving DecidableEq, Repr

/-- A document: an ordered list of key/value bindings. -/
abbrev BDoc := List (String × BVal)

/-- First-binding lookup of a key in a document. -/
def BDoc.lookupKey (d : BDoc) (k : String) : Option BVal :=
  match d with
  | [] => none
  | (k', v) :: rest => if k' = k then some v else BDoc.lookupKey rest k

/-- Modelled from the spec: an (equality) query filter matches a document
when every binding of the filter is the first binding of that key in the
document; the empty filter matches every document. -/
def matchesFilter (filter : BDoc) (d : BDoc) : Bool :=
  filter.all (fun kv => d.lookupKey kv.1 = some kv.2)

/-- Modelled from the spec: the document codec collaborator,
`encode(T) -> document`, `decode(document) -> T`. -/
structure Codec (T : Type) where
  encode : T → BDoc
  decode : BDoc → T

/-- The identity codec on raw documents. -/
def bdocCodec : Codec BDoc :=
  { encode := id, decode := id }

/-- Find options recognized by the contract: result limit, projection, sort
(`RemoteFindOptions` in the source imports). -/
structure RemoteFindOptions where
  limit : Option Nat := none
  projection : Option BDoc := none
  sort : Option BDoc := none
  deriving DecidableEq, Repr

/-- The command kind captured by a read-operation descriptor. -/
inductive CommandKind where
  | findKind
  | aggregateKind
  deriving DecidableEq, Repr

/-- Modelled from the spec: the query-or-pipeline payload of a read
operation (`RemoteMongoReadOperation` is imported but not defined in the
repository slice). -/
inductive QueryOrPipeline where
  | query (filter : BDoc)
  | pipeline (stages : List BDoc)
  deriving DecidableEq, Repr

/-- Modelled from the spec: a Read Operation is an immutable descriptor
`{ commandKind, queryOrPipeline, options }`; constructing it captures intent
and performs no network I/O. -/
structure RemoteMongoReadOperation where
  kind : CommandKind
  payload : QueryOrPipeline
  options : RemoteFindOptions
  deriving DecidableEq, Repr

/-- Commands that can be issued over the Command Channel. -/
inductive Command where
  | findCmd (filter : BDoc) (options : RemoteFindOptions)
  | aggregateCmd (stages : List BDoc)
  | findOneCmd (filter : BDoc) (options : RemoteFindOptions)
  | insertOneCmd (doc : BDoc)
  | watchCmd (compact : Bool)
  deriving DecidableEq, Repr

/-- Modelled from the spec: the Command Channel collaborator, holding the
remote collection state (documents in server order), a counter of commands
received (the observable used by the test-double properties), and the
server-side fresh-identifier counter. -/
structure Channel where
  data : List BDoc
  calls : Nat
  nextId : Nat
  deriving DecidableEq, Repr

/-- Truncate a result list to an optional limit. -/
def applyLimit (limit : Option Nat) (l : List BDoc) : List BDoc :=
  match limit with
  | none => l
  | some n => l.take n

/-- The identifier field key of a document. -/
def idKey : String := "_id"

/-- Whether a document carries an identifier field. -/
def hasId (d : BDoc) : Bool :=
  (d.lookupKey idKey).isSome

/-- Modelled from the spec: executing one command on the Command Channel.
Every execution increments the call counter; a find command filters the
collection state and applies the limit; findOne is the single-round-trip
variant; insertOne appends the document, generating a fresh identifier when
the document lacks one; an aggregate command is evaluated remotely (the
stage semantics are out of the spec's scope, so the pipeline result is the
collection state); a watch command registers the subscription request. -/
def Channel.execute (ch : Channel) (c : Command) : List BDoc × Channel :=
  match c with
  | .findCmd filter opts =>
      (applyLimit opts.limit (ch.data.filter (matchesFilter filter)),
       { ch with calls := ch.calls + 1 })
  | .aggregateCmd _ =>
      (ch.data, { ch with calls := ch.calls + 1 })
  | .findOneCmd filter _ =>
      ((ch.data.filter (matchesFilter filter)).take 1,
       { ch with calls := ch.calls + 1 })
  | .insertOneCmd doc =>
      let doc' := if hasId doc then doc else (idKey, BVal.int ch.nextId) :: doc
      ([doc'],
       { ch with
          data := ch.data ++ [doc'],
          calls := ch.calls + 1,
          nextId := ch.nextId + 1 })
  | .watchCmd _ =>
      ([], { ch with calls := ch.calls + 1 })

/-- The Collection Facade: a namespace (the `namespace` property of the
source interface, renamed since `namespace` is reserved in Lean) and a
codec.  The Command Channel collaborator is threaded explicitly. -/
structure RemoteMongoCollection (T : Type) where
  nspace : String
  codec : Codec T

/-- `withCollectionType` of the source interface: a new facade over the same
namespace with the given codec; a pure rebind with no I/O. -/
def RemoteMongoCollection.withCollectionType {T U : Type}
    (coll : RemoteMongoCollection T) (codec : Codec U) :
    RemoteMongoCollection U :=
  { nspace := coll.nspace, codec := codec }

/-- Modelled from the spec: `find` is pure descriptor construction; the
Command Channel is passed through untouched so that the zero-calls frame
property is observable. -/
def RemoteMongoCollection.find {T : Type} (_ : RemoteMongoCollection T)
    (query : BDoc) (options : RemoteFindOptions) (ch : Channel) :
    RemoteMongoReadOperation × Channel :=
  (⟨.findKind, .query query, options⟩, ch)

/-- Modelled from the spec: `aggregate` is pure descriptor construction; the
Command Channel is passed through untouched. -/
def RemoteMongoCollection.aggregate {T : Type} (_ : RemoteMongoCollection T)
    (stages : List BDoc) (ch : Channel) :
    RemoteMongoReadOperation × Channel :=
  (⟨.aggregateKind, .pipeline stages, {}⟩, ch)

/-- The command a read-operation descriptor sends when executed. -/
def RemoteMongoReadOperation.toCommand (op : RemoteMongoReadOperation) :
    Command :=
  match op.payload with
  | .query filter => .findCmd filter op.options
  | .pipeline stages => .aggregateCmd stages

/-- Modelled from the spec: `execute-as-list` on a read-operation descriptor
sends the captured command over the Channel and decodes every returned
document through the codec; the descriptor the caller still holds is
returned alongside, unchanged, making non-mutation observable. -/
def executeAsList {T : Type} (c : Codec T) (op : RemoteMongoReadOperation)
    (ch : Channel) : RemoteMongoReadOperation × List T × Channel :=
  (op, (ch.execute op.toCommand).1.map c.decode, (ch.execute op.toCommand).2)

/-- Modelled from the spec: `findOne` is a single-round-trip command
returning the first match or null (`none`) on zero matches. -/
def RemoteMongoCollection.findOne {T : Type} (coll : RemoteMongoCollection T)
    (query : BDoc) (options : RemoteFindOptions) (ch : Channel) :
    Option T × Channel :=
  ((ch.execute (.findOneCmd query options)).1.head?.map coll.codec.decode,
   (ch.execute (.findOneCmd query options)).2)

/-- The result of an insert-one operation: the identifier actually used. -/
structure RemoteInsertOneResult where
  insertedId : BVal
  deriving DecidableEq, Repr

/-- Modelled from the spec: `insertOne` encodes the document, sends the
insert command, and reports the identifier actually used for the insert. -/
def RemoteMongoCollection.insertOne {T : Type} (coll : RemoteMongoCollection T)
    (document : T) (ch : Channel) :
    Option RemoteInsertOneResult × Channel :=
  ((ch.execute (.insertOneCmd (coll.codec.encode document))).1.head?.bind
     (fun d => (d.lookupKey idKey).map (fun v => ⟨v⟩)),
   (ch.execute (.insertOneCmd (coll.codec.encode document))).2)

/-- Operation type of a change event (the tagged-union discriminant). -/
inductive OperationType where
  | insert
  | update
  | replace
  | delete
  | unknown
  deriving DecidableEq, Repr

/-- Description of changed and removed fields of an update event. -/
structure UpdateDescription where
  updatedFields : BDoc
  removedFields : List String
  deriving DecidableEq, Repr

/-- Modelled from the spec: a raw server-sent change notification as it
arrives from the Ordered Event Source; `seq` is the server-assigned order
mark carried by the notification. -/
structure RawEvent where
  seq : Nat
  opType : OperationType
  documentKey : BDoc
  fullDocument : Option BDoc
  updateDescription : Option UpdateDescription
  deriving DecidableEq, Repr

/-- A full change event as delivered to the caller (`ChangeEvent<T>` in the
source imports); `id` is the server-assigned order mark of the event. -/
structure ChangeEvent (T : Type) where
  id : Nat
  operationType : OperationType
  documentKey : BDoc
  fullDocument : Option T
  updateDescription : Option UpdateDescription

/-- A compact change event (`CompactChangeEvent<T>` in the source imports):
the reduced-field variant whose document body is omitted. -/
structure CompactChangeEvent (T : Type) where
  operationType : OperationType
  documentKey : BDoc
  fullDocument : Option T
  updateDescription : Option UpdateDescription

/-- Modelled from the spec: decoding one raw notification into a full
change event — the document-after field is decoded through the codec when
present; a delete carries no document body. -/
def decodeFull {T : Type} (c : Codec T) (r : RawEvent) : ChangeEvent T :=
  { id := r.seq
    operationType := r.opType
    documentKey := r.documentKey
    fullDocument :=
      match r.opType with
      | .delete => none
      | _ => r.fullDocument.map c.decode
    updateDescription := r.updateDescription }

/-- Modelled from the spec: decoding one raw notification into a compact
change event — no document body is decoded, only the identifier and
change-kind metadata. -/
def decodeCompact {T : Type} (_ : Codec T) (r : RawEvent) :
    CompactChangeEvent T :=
  { operationType := r.opType
    documentKey := r.documentKey
    fullDocument := none
    updateDescription := r.updateDescription }

/-- The full-mode event sequence delivered to the caller: each arrival is
decoded one at a time, in arrival order. -/
def deliverFull {T : Type} (c : Codec T) (raws : List RawEvent) :
    List (ChangeEvent T) :=
  raws.map (decodeFull c)

/-- The compact-mode event sequence delivered to the caller. -/
def deliverCompact {T : Type} (c : Codec T) (raws : List RawEvent) :
    List (CompactChangeEvent T) :=
  raws.map (decodeCompact c)

/-- One element of the stream as observed by the caller: an event, a
graceful end of stream, or a terminal transport-error signal. -/
inductive StreamSignal (E : Type) where
  | event (e : E)
  | endOfStream
  | error
  deriving DecidableEq

/-- How the transport connection beneath an open subscription ends. -/
inductive TransportOutcome where
  | graceful
  | failure
  deriving DecidableEq, Repr

/-- The terminal signal of a stream for a given transport outcome. -/
def terminalOf {E : Type} (o : TransportOutcome) : StreamSignal E :=
  match o with
  | .graceful => .endOfStream
  | .failure => .error

/-- Modelled from the spec: the sequence of signals an open full-mode
subscription delivers — each arrival decoded in order, then exactly one
terminal signal; a transport failure is surfaced through the sequence
itself and triggers no reconnection. -/
def runStream {T : Type} (c : Codec T) (raws : List RawEvent)
    (o : TransportOutcome) : List (StreamSignal (ChangeEvent T)) :=
  (deliverFull c raws).map .event ++ [terminalOf o]

/-- The target of a full-mode watch call. -/
inductive WatchTarget where
  | allDocuments
  | ids (l : List BVal)
  | matchFilter (d : BDoc)
  deriving DecidableEq, Repr

/-- The local contract-violation error a watch call can raise. -/
inductive WatchError where
  | compactRequiresIds
  deriving DecidableEq, Repr

/-- Modelled from the spec: `watch` — full mode accepts any target (absent,
identifier list, or match expression); it sends exactly one subscription
request over the Channel and returns once the subscription is established. -/
def RemoteMongoCollection.watch {T : Type} (_ : RemoteMongoCollection T)
    (_ : WatchTarget) (ch : Channel) : Except WatchError Unit × Channel :=
  (Except.ok (), (ch.execute (.watchCmd false)).2)

/-- Modelled from the spec: `watchCompact` — compact mode requires a
non-empty identifier list, enforced before the subscription enters the
Opening state; the empty list is rejected with no subscription request
ever sent over the Channel. -/
def RemoteMongoCollection.watchCompact {T : Type}
    (_ : RemoteMongoCollection T) (ids : List BVal) (ch : Channel) :
    Except WatchError Unit × Channel :=
  if ids.isEmpty then
    (Except.error .compactRequiresIds, ch)
  else
    (Except.ok (), (ch.execute (.watchCmd true)).2)

/-- Modelled from the spec: a full watch call together with the life of the
stream it opens — the subscription request is sent once, the stream then
delivers its signals; the watch call itself returns successfully once the
subscription is established, regardless of how the transport later ends. -/
def watchAndRun {T : Type} (coll : RemoteMongoCollection T)
    (t : WatchTarget) (raws : List RawEvent) (o : TransportOutcome)
    (ch : Channel) :
    Except WatchError (List (StreamSignal (ChangeEvent T))) × Channel :=
  ((coll.watch t ch).1.map (fun _ => runStream coll.codec raws o),
   (coll.watch t ch).2)

/-- The operation catalog declared by the source interface
(`RemoteMongoCollection.ts`, lines 65 to 269). -/
inductive MethodName where
  | namespaceProp
  | withCollectionType
  | count
  | find
  | findOne
  | findOneAndUpdate
  | findOneAndReplace
  | findOneAndDelete
  | aggregate
  | insertOne
  | insertMany
  | deleteOne
  | deleteMany
  | updateOne
  | updateMany
  | watch
  | watchCompact
  deriving DecidableEq, Repr

/-- The return type a method declares, as written in the source interface:
either a value returned directly (synchronously) or a Promise. -/
inductive DeclaredReturn where
  | directString
  | directFacade
  | directReadOperation
  | promiseNumber
  | promiseMaybeDoc
  | promiseInsertOneResult
  | promiseInsertManyResult
  | promiseDeleteResult
  | promiseUpdateResult
  | promiseChangeStream
  | promiseCompactChangeStream
  deriving DecidableEq, Repr

/-- The declared return type of each method, transcribed from the source
interface signatures. -/
def declaredReturn : MethodName → DeclaredReturn
  | .namespaceProp => .directString
  | .withCollectionType => .directFacade
  | .count => .promiseNumber
  | .find => .directReadOperation
  | .findOne => .promiseMaybeDoc
  | .findOneAndUpdate => .promiseMaybeDoc
  | .findOneAndReplace => .promiseMaybeDoc
  | .findOneAndDelete => .promiseMaybeDoc
  | .aggregate => .directReadOperation
  | .insertOne => .promiseInsertOneResult
  | .insertMany => .promiseInsertManyResult
  | .deleteOne => .promiseDeleteResult
  | .deleteMany => .promiseDeleteResult
  | .updateOne => .promiseUpdateResult
  | .updateMany => .promiseUpdateResult
  | .watch => .promiseChangeStream
  | .watchCompact => .promiseCompactChangeStream

/-- Whether a declared return type is Promise-wrapped. -/
def DeclaredReturn.isPromise : DeclaredReturn → Bool
  | .directString => false
  | .directFacade => false
  | .directReadOperation => false
  | _ => true

/-- In the host language a call can produce a rejected promise, or any
deferred failure, only when its declared return type is a Promise. -/
def DeclaredReturn.canProduceRejectedPromise (r : DeclaredReturn) : Bool :=
  r.isPromise

/-- The executing operations named by the contract: every operation that
issues a remote command when called. -/
def executingMethods : List MethodName :=
  [.count, .findOne, .findOneAndUpdate, .findOneAndReplace,
   .findOneAndDelete, .insertOne, .insertMany, .deleteOne, .deleteMany,
   .updateOne, .updateMany, .watch, .watchCompact]

/-- Sample raw notification: an insert of document `{_id: 1}`, server
order mark 0. -/
def rawInsertEvent : RawEvent :=
  { seq := 0
    opType := .insert
    documentKey := [(idKey, BVal.int 1)]
    fullDocument := some [(idKey, BVal.int 1)]
    updateDescription := none }

/-- Sample raw notification: a delete of document `{_id: 1}`, server
order mark 1. -/
def rawDeleteEvent : RawEvent :=
  { seq := 1
    opType := .delete
    documentKey := [(idKey, BVal.int 1)]
    fullDocument := none
    updateDescription := none }

/-- Every command execution increments the Channel call counter by
exactly one. -/
theorem Channel.execute_calls (ch : Channel) (c : Command) :
    (ch.execute c).2.calls = ch.calls + 1 := by
  cases c <;> rfl

/-- C1: constructing a Read Operation by `find` or `aggregate` performs no
command execution — the Command Channel is returned untouched, so it
receives zero calls between construction and the first terminal call; that
first terminal call is then exactly one Channel call. -/
theorem find_aggregate_construct_no_calls {T : Type}
    (coll : RemoteMongoCollection T) (q : BDoc) (o : RemoteFindOptions)
    (stages : List BDoc) (ch : Channel) :
    (coll.find q o ch).2 = ch ∧
    (coll.aggregate stages ch).2 = ch ∧
    (executeAsList coll.codec (coll.find q o ch).1 ch).2.2.calls
      = ch.calls + 1 ∧
    (executeAsList coll.codec (coll.aggregate stages ch).1 ch).2.2.calls
      = ch.calls + 1 := by
  refine ⟨rfl, rfl, ?_, ?_⟩ <;>
    simp [executeAsList, Channel.execute_calls]

/-- C2: each terminal execution of a Read Operation descriptor issues a
fresh command — two `execute-as-list` calls on one descriptor make exactly
two Channel calls — and no execution mutates the descriptor: the descriptor
observed after each execution equals the descriptor as constructed. -/
theorem executeAsList_fresh_and_immutable {T : Type} (c : Codec T)
    (op : RemoteMongoReadOperation) (ch : Channel) :
    (executeAsList c op ((executeAsList c op ch).2.2)).2.2.calls
      = ch.calls + 2 ∧
    (executeAsList c op ch).1 = op ∧
    (executeAsList c op ((executeAsList c op ch).2.2)).1 = op := by
  refine ⟨?_, rfl, rfl⟩
  simp [executeAsList, Channel.execute_calls]

/-- C3: `findOne(f)` returns null exactly when `find(f)` executed as a
list yields the empty sequence; the null is an ordinary successful
result. -/
theorem findOne_none_iff_find_empty {T : Type}
    (coll : RemoteMongoCollection T) (q : BDoc) (ch : Channel) :
    (coll.findOne q {} ch).1 = none ↔
      (executeAsList coll.codec (coll.find q {} ch).1 ch).2.1 = [] := by
  simp only [RemoteMongoCollection.findOne, RemoteMongoCollection.find,
    executeAsList, RemoteMongoReadOperation.toCommand, Channel.execute,
    applyLimit]
  cases h : ch.data.filter (matchesFilter q) <;> simp [h]

/-- C4: `watchCompact` with an empty identifier list is rejected before any
connection is opened: the call returns the contract-violation error and the
Command Channel is returned untouched — no subscription request is ever
sent. -/
theorem watchCompact_empty_rejected {T : Type}
    (coll : RemoteMongoCollection T) (ch : Channel) :
    coll.watchCompact [] ch = (Except.error .compactRequiresIds, ch) := rfl

/-- C5: events of an open change stream are decoded one at a time and
delivered strictly in arrival order — position `i` of the delivered
sequence is the decoding of arrival `i`, in both full and compact mode —
so when the transport presents arrivals respecting the server-assigned
order marks (duplicates allowed), the caller never observes two events out
of order. -/
theorem watch_delivery_preserves_order {T : Type} (c : Codec T)
    (raws : List RawEvent)
    (h : List.Chain' (fun a b => a.seq ≤ b.seq) raws) :
    (∀ i : Nat, (deliverFull c raws)[i]? = (raws[i]?).map (decodeFull c)) ∧
    (∀ i : Nat,
      (deliverCompact c raws)[i]? = (raws[i]?).map (decodeCompact c)) ∧
    List.Chain' (fun a b => a.id ≤ b.id) (deliverFull c raws) := by
  refine ⟨?_, ?_, ?_⟩
  · intro i; simp [deliverFull]
  · intro i; simp [deliverCompact]
  · rw [deliverFull, List.chain'_map]
    simpa [decodeFull] using h

/-- Witness for C5 at a concrete two-event stream. -/
theorem watch_delivery_preserves_order_witness :
    List.Chain' (fun a b => a.seq ≤ b.seq) [rawInsertEvent, rawDeleteEvent] ∧
    List.Chain' (fun a b => a.id ≤ b.id)
      (deliverFull bdocCodec [rawInsertEvent, rawDeleteEvent]) :=
  ⟨by simp [List.chain'_cons, rawInsertEvent, rawDeleteEvent],
   (watch_delivery_preserves_order bdocCodec [rawInsertEvent, rawDeleteEvent]
      (by simp [List.chain'_cons, rawInsertEvent, rawDeleteEvent])).2.2⟩

/-- C6: a full change event for a delete carries no document body; a full
change event for an insert carries the complete document decoded through
the codec; a compact change event never carries a document body, whatever
the operation type. -/
theorem change_event_body_rules {T : Type} (c : Codec T) (r : RawEvent) :
    (r.opType = .delete → (decodeFull c r).fullDocument = none) ∧
    (decodeCompact c r).fullDocument = none ∧
    (∀ d, r.opType = .insert → r.fullDocument = some d →
      (decodeFull c r).fullDocument = some (c.decode d)) := by
  refine ⟨?_, rfl, ?_⟩
  · intro h; simp [decodeFull, h]
  · intro d h hd; simp [decodeFull, h, hd]

/-- Witness for C6 at concrete insert and delete events. -/
theorem change_event_body_rules_witness :
    (decodeFull bdocCodec rawDeleteEvent).fullDocument = none ∧
    (decodeCompact bdocCodec rawInsertEvent).fullDocument = none ∧
    (decodeFull bdocCodec rawInsertEvent).fullDocument
      = some [(idKey, BVal.int 1)] :=
  ⟨(change_event_body_rules bdocCodec rawDeleteEvent).1 rfl,
   (change_event_body_rules bdocCodec rawInsertEvent).2.1,
   (change_event_body_rules bdocCodec rawInsertEvent).2.2
     [(idKey, BVal.int 1)] rfl rfl⟩

/-- C7: a transport failure after the subscription is established is
surfaced as the terminal signal of the event sequence — the watch call
itself still returns successfully — the error appears only at the very end
of the sequence, and exactly one subscription request is ever sent over the
Channel (no implicit reconnection after the Errored state). -/
theorem watch_transport_failure_terminal {T : Type}
    (coll : RemoteMongoCollection T) (t : WatchTarget)
    (raws : List RawEvent) (ch : Channel) :
    (watchAndRun coll t raws .failure ch).1
      = Except.ok (runStream coll.codec raws .failure) ∧
    (watchAndRun coll t raws .failure ch).2.calls = ch.calls + 1 ∧
    (runStream coll.codec raws .failure).getLast? = some .error ∧
    ∀ s ∈ (runStream coll.codec raws .failure).dropLast,
      s ≠ StreamSignal.error := by
  refine ⟨rfl, ?_, ?_, ?_⟩
  · simp [watchAndRun, RemoteMongoCollection.watch, Channel.execute_calls]
  · simp [runStream, terminalOf]
  · intro s hs
    rw [runStream, terminalOf, List.dropLast_concat] at hs
    rcases List.mem_map.mp hs with ⟨e, _, he⟩
    rw [← he]
    intro hcontra
    cases hcontra

/-- C8: `withCollectionType` is a pure rebind — the new facade keeps the
original namespace and carries the new codec; the operation takes no
Channel, so it performs no I/O and cannot raise a remote-originating
error. -/
theorem withCollectionType_pure_rebind {T U : Type}
    (coll : RemoteMongoCollection T) (newCodec : Codec U) :
    (coll.withCollectionType newCodec).nspace = coll.nspace ∧
    (coll.withCollectionType newCodec).codec = newCodec :=
  ⟨rfl, rfl⟩

/-- C9: inserting a document that lacks an identifier field succeeds with a
result reporting the identifier actually used, and a subsequent find with
the filter `{_id: result.id}` executed as a list yields exactly the
inserted document. -/
theorem insertOne_roundtrip {T : Type} (coll : RemoteMongoCollection T)
    (document : T) (ch : Channel)
    (hdoc : hasId (coll.codec.encode document) = false)
    (hfresh : ∀ d ∈ ch.data,
      d.lookupKey idKey ≠ some (BVal.int ch.nextId)) :
    (coll.insertOne document ch).1 = some ⟨BVal.int ch.nextId⟩ ∧
    (executeAsList coll.codec
      ((coll.find [(idKey, BVal.int ch.nextId)] {}
          (coll.insertOne document ch).2).1)
      (coll.insertOne document ch).2).2.1
      = [coll.codec.decode
          ((idKey, BVal.int ch.nextId) :: coll.codec.encode document)] := by
  have henc : ch.execute (.insertOneCmd (coll.codec.encode document))
      = ([(idKey, BVal.int ch.nextId) :: coll.codec.encode document],
         { ch with
            data := ch.data ++
              [(idKey, BVal.int ch.nextId) :: coll.codec.encode document],
            calls := ch.calls + 1,
            nextId := ch.nextId + 1 }) := by
    simp [Channel.execute, hdoc]
  constructor
  · simp [RemoteMongoCollection.insertOne, henc, BDoc.lookupKey]
  · simp only [RemoteMongoCollection.insertOne, henc]
    simp only [executeAsList, RemoteMongoCollection.find,
      RemoteMongoReadOperation.toCommand, Channel.execute, applyLimit]
    rw [List.filter_append]
    have h1 : ch.data.filter
        (matchesFilter [(idKey, BVal.int ch.nextId)]) = [] := by
      rw [List.filter_eq_nil_iff]
      intro d hd
      simpa [matchesFilter] using hfresh d hd
    rw [h1]
    simp [matchesFilter, BDoc.lookupKey]

/-- Sample facade over raw documents for the concrete witnesses. -/
def sampleColl : RemoteMongoCollection BDoc :=
  { nspace := "db.coll", codec := bdocCodec }

/-- Sample document lacking an identifier field. -/
def sampleDoc : BDoc := [("x", BVal.int 1)]

/-- A Channel over an empty collection with no calls received. -/
def emptyChannel : Channel := { data := [], calls := 0, nextId := 0 }

/-- Witness for C9 at a concrete facade, document and channel. -/
theorem insertOne_roundtrip_witness :
    (sampleColl.insertOne sampleDoc emptyChannel).1
      = some ⟨BVal.int 0⟩ ∧
    (executeAsList sampleColl.codec
      ((sampleColl.find [(idKey, BVal.int 0)] {}
          (sampleColl.insertOne sampleDoc emptyChannel).2).1)
      (sampleColl.insertOne sampleDoc emptyChannel).2).2.1
      = [sampleColl.codec.decode
          ((idKey, BVal.int 0) :: sampleColl.codec.encode sampleDoc)] :=
  insertOne_roundtrip sampleColl sampleDoc emptyChannel (by decide)
    (by simp [emptyChannel])

/-- C10: as declared by the source interface, `find` and `aggregate` return
the Read Operation directly while every executing operation returns a
Promise, so a `find` or `aggregate` call can never produce a rejected
promise or any deferred remote error. -/
theorem find_aggregate_synchronous_signatures :
    declaredReturn .find = .directReadOperation ∧
    declaredReturn .aggregate = .directReadOperation ∧
    (declaredReturn .find).isPromise = false ∧
    (declaredReturn .aggregate).isPromise = false ∧
    (declaredReturn .find).canProduceRejectedPromise = false ∧
    (declaredReturn .aggregate).canProduceRejectedPromise = false ∧
    ∀ m ∈ executingMethods, (declaredReturn m).isPromise = true := by
  decide
